import Mathlib

/-!
# Verification of the isov voltage-to-frequency engine (src/isov.c)

A shallow embedding of the pulse-to-voltage conversion engine of
`src/isov.c` (a Linux kernel module for a 5-channel isolated voltage
measuring shield on a Raspberry Pi, BCM2708), together with theorems
settling the specification's claims about it.

Modelling conventions:
* The target is 32-bit ARM (BCM2708), so `size_t` is an unsigned 32-bit
  integer, `loff_t` a signed 64-bit integer and `ssize_t` a signed 32-bit
  integer.  Machine integers are modelled as `Nat`/`Int` with explicit
  reductions mod `2^32` exactly where the C arithmetic wraps or converts.
* The interrupt handler `vcf_isr` runs for the one channel `i` whose IRQ
  number matches (the loop body at src/isov.c:110-121); the two
  `ioread32(timer)` calls both return the counter value at the edge, the
  `now` parameter (the sequential embedding: the counter does not advance
  inside the handler).
* C unsigned division by zero is undefined behavior; the embedding makes
  the handler return `none` on the input that reaches it.
* `copy_to_user` failure (`-EFAULT`) depends on the caller's memory and is
  outside the model; the model assumes the copy succeeds.
-/

namespace Isov

/-- `2^32`: the modulus of the free-running 32-bit counter and of all
u32 arithmetic in the module. -/
def U32_MOD : Nat := 4294967296

/-- `2^31`: the first u32 bit pattern whose C `int` reinterpretation is
negative. -/
def S32_HALF : Nat := 2147483648

/-- C u32 subtraction `a - b` (wraparound, mod `2^32`), as in
`ioread32(timer) - last_pulse_time[i]` at src/isov.c:112.  Operands are
u32 values; the `% U32_MOD` reductions make the definition total. -/
def u32_sub (a b : Nat) : Nat :=
  (a % U32_MOD + U32_MOD - b % U32_MOD) % U32_MOD

/-- The C `int` value whose 32-bit pattern is the u32 `n` (the implicit
conversion when an unsigned division result is stored into
`voltages[i]`, a C `int`). -/
def toS32 (n : Nat) : Int :=
  if n % U32_MOD < S32_HALF then ((n % U32_MOD : Nat) : Int)
  else ((n % U32_MOD : Nat) : Int) - (U32_MOD : Int)

/-- The u32 bit pattern of a C `int` value (the usual-arithmetic
conversion of `calib_coeficients[i]`, a C `int`, to u32 in
`calib_coeficients[i] / time_diff`, whose other operand is u32). -/
def toU32 (x : Int) : Nat := (x % (U32_MOD : Int)).toNat

/-- The module's per-channel state: the three 5-element arrays
`last_pulse_time` (src/isov.c:79), `calib_coeficients` (src/isov.c:82)
and `voltages` (src/isov.c:85). -/
structure IsovState where
  last_pulse_time : Fin 5 → Nat
  calib_coeficients : Fin 5 → Int
  voltages : Fin 5 → Int

/-- The arrays as initialized at module load: all last-pulse times 0,
all calibration coefficients 7692308, all voltages 0. -/
def initIsov : IsovState :=
  { last_pulse_time := fun _ => 0
    calib_coeficients := fun _ => 7692308
    voltages := fun _ => 0 }

/-- One matched iteration of the interrupt handler `vcf_isr`
(src/isov.c:107-124) for channel `i`, with `now` the counter value read
by `ioread32(timer)`:

* `time_diff = ioread32(timer) - last_pulse_time[i]` (u32 wraparound);
* `last_pulse_time[i] = ioread32(timer)` (always);
* `if (time_diff < 1000000) voltages[i] = calib_coeficients[i] / time_diff;`

The guard `time_diff < 1000000` does not exclude `time_diff == 0`, so
that case reaches the C unsigned division by zero, which is undefined
behavior: the model returns `none` there.  The division converts the
`int` coefficient to u32 and stores the u32 quotient back into an `int`
(`toS32`, `toU32`). -/
def vcf_isr (i : Fin 5) (now : Nat) (s : IsovState) : Option IsovState :=
  let time_diff := u32_sub now (s.last_pulse_time i)
  let s1 : IsovState :=
    { s with last_pulse_time := Function.update s.last_pulse_time i now }
  if time_diff < 1000000 then
    if time_diff = 0 then
      none
    else
      some { s1 with
        voltages := Function.update s1.voltages i
          (toS32 (toU32 (s1.calib_coeficients i) / time_diff)) }
  else
    some s1

/-- The text `snprintf(txt_buffer, 256, "V1=%d V2=%d V3=%d V4=%d V5=%d \n",
voltages[0], ..., voltages[4])` renders at src/isov.c:152.  The values are
C `int`s, so the output is at most 76 characters and the `snprintf`
truncation at 255 characters is unreachable. -/
def render (v : Fin 5 → Int) : String :=
  "V1=" ++ toString (v 0) ++ " V2=" ++ toString (v 1) ++ " V3=" ++ toString (v 2)
    ++ " V4=" ++ toString (v 3) ++ " V5=" ++ toString (v 4) ++ " \n"

/-- The meaningful contents of `txt_buffer` after the render: the
formatted text followed by the terminating null byte that `snprintf`
writes (src/isov.c:152). -/
def txt_buffer_bytes (v : Fin 5 → Int) : List Char :=
  (render v).data ++ [Char.ofNat 0]

/-- `txt_len` after the render branch of `isov_misc_read`: the `snprintf`
return value (the formatted length) plus 1 for the null terminator
(src/isov.c:152-155). -/
def txt_len (v : Fin 5 → Int) : Nat := (txt_buffer_bytes v).length

/-- The error codes the character-device engine returns. -/
inductive IsovErr where
  | ENODATA
  | EINVAL
deriving DecidableEq

/-- The chunk length computed at src/isov.c:159,
`len = (txt_len - *offset > count) ? count : txt_len - *offset;` on the
32-bit target: `txt_len` (u32) and `count` (u32) convert to s64 next to
`*offset` (s64), the comparison and subtraction are exact in s64, and the
chosen value is truncated mod `2^32` on assignment to `len` (a u32
`size_t`). -/
def readLen (tl offset count : Nat) : Nat :=
  let diff : Int := (tl : Int) - (offset : Int)
  ((if diff > (count : Int) then (count : Int) else diff) % (U32_MOD : Int)).toNat

/-- The read handler `isov_misc_read` (src/isov.c:145-175) for the
current voltages `v`, caller offset `*offset` and byte count `count`.
`txt_len` is a local variable initialized to 0, so the first branch's
condition `txt_len - *offset <= 0` is `0 - *offset <= 0` in s64, true for
every non-negative kernel file offset: the buffer is re-rendered from the
current voltages on every call.  Then `len` is computed (`readLen`); if
`len == 0` the handler logs "Sprintf not write" and returns `-ENODATA`;
otherwise it copies from `txt_buffer + *offset` and returns `len`.  The
result models the `len` bytes the return value vouches for (the C call
`copy_to_user(buf, txt_buffer + *offset, len+1)` copies one extra byte
beyond the reported count; `*offset` is never advanced by the handler). -/
def isov_misc_read (v : Fin 5 → Int) (offset count : Nat) :
    Except IsovErr (Nat × List Char) :=
  let len := readLen (txt_len v) offset count
  if len = 0 then Except.error IsovErr.ENODATA
  else Except.ok (len, ((txt_buffer_bytes v).drop offset).take len)

/-- The bytes a read call delivers (empty on an error return). -/
def readData (v : Fin 5 → Int) (offset count : Nat) : List Char :=
  match isov_misc_read v offset count with
  | Except.ok r => r.2
  | Except.error _ => []

/-- The write handler `isov_misc_write` (src/isov.c:140-142): it returns
`-EINVAL` unconditionally. -/
def isov_misc_write (count offset : Nat) : Except IsovErr Nat :=
  Except.error IsovErr.EINVAL

/-- The read handler as a transition on the module state: the C function
contains no store to `last_pulse_time`, `calib_coeficients` or
`voltages` (it only writes the separate static `txt_buffer`), so the
channel state passes through unchanged. -/
def isov_misc_read_st (s : IsovState) (offset count : Nat) :
    IsovState × Except IsovErr (Nat × List Char) :=
  (s, isov_misc_read s.voltages offset count)

/-- The write handler as a transition on the module state: the C function
body is a bare `return -EINVAL;` with no store at all. -/
def isov_misc_write_st (s : IsovState) (count offset : Nat) :
    IsovState × Except IsovErr Nat :=
  (s, isov_misc_write count offset)

/-- The state after the first edge in the C2 witness scenario: an edge at
tick 2000000 on channel 0 from the initial state (the elapsed 2000000
ticks exceed the validity window, so only the timestamp is recorded). -/
def c2s1 : IsovState :=
  { last_pulse_time := Function.update initIsov.last_pulse_time 0 2000000
    calib_coeficients := initIsov.calib_coeficients
    voltages := initIsov.voltages }

/-- The state after an edge at tick 7 on channel 1 from the initial
state: period 7, voltage 7692308 / 7 = 1098901. -/
def c5s1 : IsovState :=
  { last_pulse_time := Function.update initIsov.last_pulse_time 1 7
    calib_coeficients := initIsov.calib_coeficients
    voltages := Function.update initIsov.voltages 1 1098901 }

/-- The state after the first edge in the C6 witness scenario: an edge at
tick 0xFFFFFFF0 = 4294967280 on channel 0 from the initial state. -/
def c6s1 : IsovState :=
  { last_pulse_time := Function.update initIsov.last_pulse_time 0 4294967280
    calib_coeficients := initIsov.calib_coeficients
    voltages := initIsov.voltages }

/-- The state after an edge at tick 50 on channel 0 from the initial
state: period 50, voltage 7692308 / 50 = 153846. -/
def c10post : IsovState :=
  { last_pulse_time := Function.update initIsov.last_pulse_time 0 50
    calib_coeficients := initIsov.calib_coeficients
    voltages := Function.update initIsov.voltages 0 153846 }

/-! ## Helper lemmas about the edge handler -/

/-- The valid-period branch of the handler: a non-zero period below
1000000 records the timestamp and publishes the divided voltage. -/
theorem vcf_isr_some_valid (i : Fin 5) (now : Nat) (s : IsovState)
    (h1 : u32_sub now (s.last_pulse_time i) < 1000000)
    (h0 : u32_sub now (s.last_pulse_time i) ≠ 0) :
    vcf_isr i now s = some
      { last_pulse_time := Function.update s.last_pulse_time i now
        calib_coeficients := s.calib_coeficients
        voltages := Function.update s.voltages i
          (toS32 (toU32 (s.calib_coeficients i) / u32_sub now (s.last_pulse_time i))) } := by
  simp [vcf_isr, h1, h0]

/-- The stale-period branch: a period of at least 1000000 only records
the timestamp. -/
theorem vcf_isr_some_invalid (i : Fin 5) (now : Nat) (s : IsovState)
    (h1 : ¬ u32_sub now (s.last_pulse_time i) < 1000000) :
    vcf_isr i now s = some
      { last_pulse_time := Function.update s.last_pulse_time i now
        calib_coeficients := s.calib_coeficients
        voltages := s.voltages } := by
  simp [vcf_isr, h1]

/-- The zero-period branch: the guard admits `time_diff = 0` and the
division by zero is reached (undefined behavior, `none`). -/
theorem vcf_isr_none_of_zero (i : Fin 5) (now : Nat) (s : IsovState)
    (h0 : u32_sub now (s.last_pulse_time i) = 0) :
    vcf_isr i now s = none := by
  simp [vcf_isr, h0]

/-- Shape of every successful handler step: calibration untouched, the
timestamp written at index `i`, and the voltages either untouched or
updated at index `i` only. -/
theorem vcf_isr_shape (i : Fin 5) (now : Nat) (s s1 : IsovState)
    (h : vcf_isr i now s = some s1) :
    s1.calib_coeficients = s.calib_coeficients ∧
    s1.last_pulse_time = Function.update s.last_pulse_time i now ∧
    (s1.voltages = s.voltages ∨
      ∃ val, s1.voltages = Function.update s.voltages i val) := by
  by_cases h1 : u32_sub now (s.last_pulse_time i) < 1000000
  · by_cases h0 : u32_sub now (s.last_pulse_time i) = 0
    · rw [vcf_isr_none_of_zero i now s h0] at h
      exact absurd h (by simp)
    · rw [vcf_isr_some_valid i now s h1 h0] at h
      cases Option.some.inj h
      exact ⟨rfl, rfl, Or.inr ⟨_, rfl⟩⟩
  · rw [vcf_isr_some_invalid i now s h1] at h
    cases Option.some.inj h
    exact ⟨rfl, rfl, Or.inl rfl⟩

/-- A successful handler step records `now` as the channel's last edge
time. -/
theorem vcf_isr_last (i : Fin 5) (now : Nat) (s s1 : IsovState)
    (h : vcf_isr i now s = some s1) : s1.last_pulse_time i = now := by
  rw [(vcf_isr_shape i now s s1 h).2.1, Function.update_same]

/-- u32 wraparound subtraction recovers the elapsed ticks when the second
timestamp is the first plus `p`, taken mod `2^32`. -/
theorem u32_sub_add (t0 p : Nat) (ht : t0 < U32_MOD) (hp : p < U32_MOD) :
    u32_sub ((t0 + p) % U32_MOD) t0 = p := by
  unfold u32_sub U32_MOD at *
  omega

/-- The C division `calib_coeficients[i] / time_diff` (int converted to
u32, unsigned division, quotient stored back into an int) agrees with
mathematical truncating division for a non-negative `int` coefficient. -/
theorem toS32_toU32_div (c : Int) (p : Nat) (hc0 : 0 ≤ c)
    (hc1 : c < 2147483648) :
    toS32 (toU32 c / p) = c / (p : Int) := by
  have hcU : toU32 c = c.toNat := by
    unfold toU32 U32_MOD
    rw [Int.emod_eq_of_lt hc0 (by omega)]
  have hlt : c.toNat / p < 2147483648 := by
    have := Nat.div_le_self c.toNat p
    omega
  rw [hcU]
  unfold toS32 S32_HALF U32_MOD
  rw [Nat.mod_eq_of_lt (by omega), if_pos hlt, Int.natCast_div,
    Int.toNat_of_nonneg hc0]

/-! ## Helper lemmas about the read handler -/

/-- `readLen` is the exact minimum when the offset is inside the
rendered text and the count is a u32 value. -/
theorem readLen_eq (tl offset count : Nat) (ho : offset < tl)
    (hc : count < U32_MOD) :
    readLen tl offset count = min count (tl - offset) := by
  simp only [readLen, U32_MOD] at *
  split_ifs with h <;> omega

/-- A read whose offset is inside the rendered text and whose count is a
positive u32 value returns exactly `min count (txt_len - offset)` bytes
of the rendered buffer, starting at the offset. -/
theorem isov_misc_read_ok (v : Fin 5 → Int) (offset count : Nat)
    (ho : offset < txt_len v) (hc0 : 0 < count) (hcM : count < U32_MOD) :
    isov_misc_read v offset count =
      Except.ok (min count (txt_len v - offset),
        ((txt_buffer_bytes v).drop offset).take (min count (txt_len v - offset))) := by
  have h := readLen_eq (txt_len v) offset count ho hcM
  have hne : min count (txt_len v - offset) ≠ 0 := by omega
  simp only [isov_misc_read, h]
  rw [if_neg hne]

/-! ## Claims -/

/-- C1: the claim states that the edge handler never performs a division
by a period of exactly 0 — that for a wraparound period of 0 the voltage
computation is skipped and the division's error branch is unreachable.
The code refutes it: the guard at src/isov.c:118 is `time_diff < 1000000`,
which admits `time_diff == 0`, so with `last_pulse_time[0] = 5` an edge at
counter value 5 evaluates `calib_coeficients[0] / 0` — an unsigned
division by zero (undefined behavior, `none` in the model). -/
theorem C1_period_zero_reaches_division :
    vcf_isr 0 5
      { last_pulse_time := fun _ => 5
        calib_coeficients := fun _ => 7692308
        voltages := fun _ => 0 } = none := rfl

/-- C2: for every channel `i`, u32 timestamp `t0` and period `p` with
`0 < p < 1000000`, after `on_edge(i, t0)` followed by
`on_edge(i, t0 + p)` (timestamps mod `2^32`) the channel's voltage equals
`calibration_coefficient(i) / p`, integer division truncating toward zero
(`Int` division of the non-negative C `int` coefficient — 7692308 for
every channel of this module — by the positive `p`). -/
theorem C2_valid_period_sets_voltage (i : Fin 5) (t0 p : Nat)
    (s s1 : IsovState)
    (ht : t0 < U32_MOD) (hp0 : 0 < p) (hp : p < 1000000)
    (hc0 : 0 ≤ s1.calib_coeficients i)
    (hc1 : s1.calib_coeficients i < 2147483648)
    (h1 : vcf_isr i t0 s = some s1) :
    ∃ s2, vcf_isr i ((t0 + p) % U32_MOD) s1 = some s2 ∧
      s2.voltages i = s1.calib_coeficients i / (p : Int) := by
  have hl : s1.last_pulse_time i = t0 := vcf_isr_last i t0 s s1 h1
  have htd : u32_sub ((t0 + p) % U32_MOD) (s1.last_pulse_time i) = p := by
    rw [hl]
    exact u32_sub_add t0 p ht (by unfold U32_MOD; omega)
  refine ⟨_, vcf_isr_some_valid i _ s1 (by rw [htd]; exact hp)
    (by rw [htd]; omega), ?_⟩
  simp only [Function.update_same, htd]
  exact toS32_toU32_div _ p hc0 hc1

/-- Witness for C2: channel 0, first edge at tick 2000000 from the
initial state (recorded, voltage held), second edge 1000 ticks later:
the voltage becomes 7692308 / 1000 = 7692. -/
theorem C2_valid_period_sets_voltage_witness :
    ∃ s2, vcf_isr 0 ((2000000 + 1000) % U32_MOD) c2s1 = some s2 ∧
      s2.voltages 0 = c2s1.calib_coeficients 0 / (1000 : Int) :=
  C2_valid_period_sets_voltage 0 2000000 1000 initIsov c2s1 (by decide)
    (by decide) (by decide) (by decide) (by decide) rfl

/-- C5: the claim states that for `p >= 1000000` or `p == 0` the second
edge leaves the voltage unchanged while still recording the timestamp.
The code refutes the `p == 0` half: after an edge at tick 7 on channel 1
(which succeeds and publishes 7692308 / 7 = 1098901), a second edge at
the same tick 7 has wraparound period 0, passes the `< 1000000` guard and
reaches the division by zero (undefined behavior, `none`) instead of
holding the previous voltage. -/
theorem C5_zero_period_not_held :
    vcf_isr 1 7 initIsov = some c5s1 ∧ vcf_isr 1 7 c5s1 = none :=
  ⟨rfl, rfl⟩

/-- C6: the period is computed by unsigned subtraction mod `2^32`: for
every channel `i` and state, an edge at `0xFFFFFFF0 = 4294967280`
followed by one at `0x10 = 16` yields the (non-negative) period
`0x20 = 32`, which passes the validity window and is the divisor of the
published voltage. -/
theorem C6_wraparound_period (i : Fin 5) (s s1 : IsovState)
    (h1 : vcf_isr i 4294967280 s = some s1) :
    u32_sub 16 (s1.last_pulse_time i) = 32 ∧
    ∃ s2, vcf_isr i 16 s1 = some s2 ∧
      s2.voltages i = toS32 (toU32 (s1.calib_coeficients i) / 32) := by
  have hl : s1.last_pulse_time i = 4294967280 :=
    vcf_isr_last i 4294967280 s s1 h1
  have htd : u32_sub 16 (s1.last_pulse_time i) = 32 := by rw [hl]; rfl
  refine ⟨htd, _, vcf_isr_some_valid i 16 s1 (by rw [htd]; omega)
    (by rw [htd]; omega), ?_⟩
  simp only [Function.update_same, htd]

/-- Witness for C6: channel 0 from the initial state. -/
theorem C6_wraparound_period_witness :
    u32_sub 16 (c6s1.last_pulse_time 0) = 32 ∧
    ∃ s2, vcf_isr 0 16 c6s1 = some s2 ∧
      s2.voltages 0 = toS32 (toU32 (c6s1.calib_coeficients 0) / 32) :=
  C6_wraparound_period 0 initIsov c6s1 rfl

/-- C3 (amended): for every offset inside the rendered text and every
positive u32 `count`, a read returns exactly
`min(count, rendered_length - offset)` bytes of the rendered text
starting at the offset; consequently reading a snapshot in two calls
(any split point) concatenates, byte for byte, to the single full-length
read.  (The amendment excludes `min(count, rendered_length - offset) = 0`,
where the code returns `-ENODATA` instead of 0 bytes — see the
counterexample.) -/
theorem C3_read_chunking :
    (∀ (v : Fin 5 → Int) (offset count : Nat),
      offset < txt_len v → 0 < count → count < U32_MOD →
      isov_misc_read v offset count =
        Except.ok (min count (txt_len v - offset),
          ((txt_buffer_bytes v).drop offset).take (min count (txt_len v - offset)))) ∧
    (∀ (v : Fin 5 → Int) (k : Nat), 0 < k → k < txt_len v → txt_len v < U32_MOD →
      readData v 0 k ++ readData v k (txt_len v - k) = readData v 0 (txt_len v)) := by
  refine ⟨fun v offset count ho hc0 hcM =>
    isov_misc_read_ok v offset count ho hc0 hcM, ?_⟩
  intro v k hk0 hk1 htl
  have h1 := isov_misc_read_ok v 0 k (by omega) hk0 (by omega)
  have h2 := isov_misc_read_ok v k (txt_len v - k) hk1 (by omega) (by omega)
  have h3 := isov_misc_read_ok v 0 (txt_len v) (by omega) (by omega) htl
  have hlen : (txt_buffer_bytes v).length = txt_len v := rfl
  unfold readData
  rw [h1, h2, h3]
  have e1 : min k (txt_len v - 0) = k := by omega
  have e2 : min (txt_len v - k) (txt_len v - k) = txt_len v - k := min_self _
  have e3 : min (txt_len v) (txt_len v - 0) = txt_len v := by omega
  simp only [e1, e2, e3, List.drop_zero]
  have h4 : ((txt_buffer_bytes v).drop k).take (txt_len v - k) =
      (txt_buffer_bytes v).drop k := by
    apply List.take_of_length_le
    rw [List.length_drop, hlen]
  have h5 : (txt_buffer_bytes v).take (txt_len v) = txt_buffer_bytes v :=
    List.take_of_length_le (by rw [hlen])
  rw [h4, h5, List.take_append_drop]

/-- Witness for C3: with all voltages 0 the rendered text is
`V1=0 V2=0 V3=0 V4=0 V5=0 \n` plus the null byte (27 bytes); a read of
5 bytes at offset 0 returns exactly the first 5 bytes. -/
theorem C3_read_chunking_witness :
    isov_misc_read (fun _ => 0) 0 5 =
      Except.ok (min 5 (txt_len (fun _ => 0) - 0),
        ((txt_buffer_bytes (fun _ => 0)).drop 0).take
          (min 5 (txt_len (fun _ => 0) - 0))) :=
  C3_read_chunking.1 (fun _ => 0) 0 5 (by decide) (by decide) (by decide)

/-- Counterexample to C3 as stated: at `offset = 0`, `max_len = 0` the
claim promises `min(0, 27) = 0` bytes returned; the code instead takes
the `len <= 0` branch (src/isov.c:162-165) and fails with `-ENODATA`. -/
theorem C3_zero_count_counterexample :
    isov_misc_read (fun _ => 0) 0 0 = Except.error IsovErr.ENODATA ∧
    ¬ ∃ r, isov_misc_read (fun _ => 0) 0 0 = Except.ok r := by
  refine ⟨rfl, ?_⟩
  rintro ⟨r, hr⟩
  rw [show isov_misc_read (fun _ => 0) 0 0 = Except.error IsovErr.ENODATA
    from rfl] at hr
  exact Except.noConfusion hr

/-- C4: the claim states that a read at `offset >= rendered_length`
returns 0 bytes (end of session).  The code refutes it: with all
voltages 0 the rendered length is 27, and a read at offset 27 computes
`len = 0`, logs "Sprintf not write" and returns `-ENODATA` — an error,
not a 0-byte end-of-session return.  (The claim's second half does hold:
`txt_len` is a local variable initialized to 0, so the text is
re-rendered from the current voltages on every call.) -/
theorem C4_end_of_session_errors :
    txt_len (fun _ => 0) = 27 ∧
    isov_misc_read (fun _ => 0) 27 10 = Except.error IsovErr.ENODATA :=
  ⟨rfl, rfl⟩

/-- C7: the rendered snapshot is exactly
`V1=<int> V2=<int> V3=<int> V4=<int> V5=<int> \n` followed by a
terminating null byte; with the module's coefficients (7692308) and a
measured period of 1000 ticks on channel 0 (edges at ticks 3000000 and
3001000 from the initial state), the voltage is 7692, the rendered text
is `V1=7692 V2=0 V3=0 V4=0 V5=0 \n` (so it begins `V1=7692`), and a
full-length read returns those 29 characters plus the null byte. -/
theorem C7_render_format :
    (∀ v : Fin 5 → Int,
      txt_buffer_bytes v =
        ("V1=" ++ toString (v 0) ++ " V2=" ++ toString (v 1) ++ " V3="
          ++ toString (v 2) ++ " V4=" ++ toString (v 3) ++ " V5="
          ++ toString (v 4) ++ " \n").data ++ [Char.ofNat 0]) ∧
    ∃ s1 s2, vcf_isr 0 3000000 initIsov = some s1 ∧
      vcf_isr 0 3001000 s1 = some s2 ∧
      s2.voltages 0 = 7692 ∧
      render s2.voltages = "V1=7692 V2=0 V3=0 V4=0 V5=0 \n" ∧
      (render s2.voltages).take 7 = "V1=7692" ∧
      isov_misc_read s2.voltages 0 256 =
        Except.ok (30, ("V1=7692 V2=0 V3=0 V4=0 V5=0 \n").data ++ [Char.ofNat 0]) := by
  exact ⟨fun v => rfl, _, _, rfl, rfl, rfl, rfl, rfl, rfl⟩

/-- C8: the write handler fails with the invalid-operation error
`-EINVAL` on every input and never succeeds: the device is read-only. -/
theorem C8_write_always_einval :
    ∀ count offset : Nat,
      isov_misc_write count offset = Except.error IsovErr.EINVAL ∧
      ∀ n : Nat, isov_misc_write count offset ≠ Except.ok n :=
  fun _ _ => ⟨rfl, fun _ h => Except.noConfusion h⟩

/-- C9: the claim states that `-ENODATA` is signalled exactly when
rendering produced zero effective length, and that this error is
distinct from the 0-byte end-of-session return.  The code refutes it:
rendering always produces a positive length (here 27), yet the read at
`offset = 27` (the end of the session) returns `-ENODATA` — the
`len <= 0` check at src/isov.c:162 fires for an exhausted offset, not
for a render failure, and no 0-byte return exists to be distinct from. -/
theorem C9_enodata_without_render_failure :
    0 < txt_len (fun _ => 0) ∧
    isov_misc_read (fun _ => 0) 27 3 = Except.error IsovErr.ENODATA :=
  ⟨by decide, rfl⟩

/-- C10: frame property.  A successful edge-handler step for channel `i`
leaves every other channel's last edge time and voltage unchanged and
every channel's calibration coefficient unchanged; the read and write
handlers contain no store to any of the three channel arrays, so they
leave the whole channel state unchanged. -/
theorem C10_frame_effect (i : Fin 5) (now : Nat) (s s1 : IsovState)
    (h : vcf_isr i now s = some s1) :
    (∀ j : Fin 5, j ≠ i → s1.last_pulse_time j = s.last_pulse_time j ∧
      s1.voltages j = s.voltages j) ∧
    (∀ j : Fin 5, s1.calib_coeficients j = s.calib_coeficients j) ∧
    (∀ (t : IsovState) (offset count : Nat),
      (isov_misc_read_st t offset count).1 = t) ∧
    (∀ (t : IsovState) (count offset : Nat),
      (isov_misc_write_st t count offset).1 = t) := by
  obtain ⟨hcal, hlast, hvolt⟩ := vcf_isr_shape i now s s1 h
  refine ⟨fun j hj => ⟨?_, ?_⟩, fun j => by rw [hcal],
    fun _ _ _ => rfl, fun _ _ _ => rfl⟩
  · rw [hlast, Function.update_noteq hj]
  · rcases hvolt with hv | ⟨val, hv⟩
    · rw [hv]
    · rw [hv, Function.update_noteq hj]

/-- Witness for C10: an edge at tick 50 on channel 0 from the initial
state; channel 1 (and the rest) keep their state, all calibration
coefficients are untouched. -/
theorem C10_frame_effect_witness :
    (∀ j : Fin 5, j ≠ 0 → c10post.last_pulse_time j = initIsov.last_pulse_time j ∧
      c10post.voltages j = initIsov.voltages j) ∧
    (∀ j : Fin 5, c10post.calib_coeficients j = initIsov.calib_coeficients j) ∧
    (∀ (t : IsovState) (offset count : Nat),
      (isov_misc_read_st t offset count).1 = t) ∧
    (∀ (t : IsovState) (count offset : Nat),
      (isov_misc_write_st t count offset).1 = t) :=
  C10_frame_effect 0 50 initIsov c10post rfl

end Isov
